import Mathlib

set_option autoImplicit false

/-!
Verification of the software secure-processor core in
src/src/sec_security_openssl.c against its natural-language specification.

The embedding is shallow: the C functions named in the claims are translated
into executable Lean definitions.  Helpers that live outside src/ (the store
envelope in sec_security_utils.c, the size helper in sec_security_common.c,
byte constants from the headers, and the filesystem utilities) are modelled
from the specification and carry a doc comment saying so.  The external
cryptographic library is abstracted by function parameters, following the
statement of the specification that the algorithms themselves are supplied by
a vetted library.
-/

/-- Result codes returned by every operation (the Sec_Result enumeration of
the error-handling design in section 7 of the specification). -/
inductive Sec_Result where
  | SUCCESS
  | FAILURE
  | INVALID_HANDLE
  | INVALID_PARAMETERS
  | INVALID_INPUT_SIZE
  | INVALID_PADDING
  | BUFFER_TOO_SMALL
  | NO_SUCH_ITEM
  | ITEM_ALREADY_PROVISIONED
  | ITEM_NON_REMOVABLE
  | VERIFICATION_FAILED
  | UNIMPLEMENTED_FEATURE
  deriving DecidableEq, Repr

/-- Storage locations (the Sec_StorageLoc enumeration of section 3). -/
inductive Sec_StorageLoc where
  | RAM
  | RAM_SOFT_WRAPPED
  | FILE
  | FILE_SOFT_WRAPPED
  | OEM
  deriving DecidableEq, Repr

/-- Modelled from the spec: the reserved invalid object identifier rejected by
provisioning (section 3; the constant itself lives in the sec_security.h
header, absent from src/).  Identifiers are 64-bit, the sentinel is the
all-ones value. -/
def SEC_OBJECTID_INVALID : Nat := 2 ^ 64 - 1

/-- Modelled from the spec: state of one object store tier pair (section 4.1).
The in-memory tier is the intrusive list, kept as an association list in
insertion order.  The filesystem tier is modelled per identifier: whether the
payload file and the info sidecar exist, the stored record, and whether the
filesystem utilities (write, remove, read - external collaborators per
section 1) succeed for that identifier. -/
structure SecObjectStore (α : Type) where
  ram : List (Nat × α)
  fileMain : Nat → Bool
  fileInfo : Nat → Bool
  fileData : Nat → α
  readOk : Nat → Bool
  writeMainOk : Nat → Bool
  writeInfoOk : Nat → Bool
  rmMainOk : Nat → Bool
  rmInfoOk : Nat → Bool

/-- SecUtils_RmFile on the payload file: after the call the file exists only
if the remove failed (an existing file stays when rmMainOk is false; an
absent file stays absent). -/
def secRmMain {α : Type} (st : SecObjectStore α) (oid : Nat) : SecObjectStore α :=
  { st with fileMain := fun x => if x = oid then (st.fileMain x && !(st.rmMainOk x)) else st.fileMain x }

/-- SecUtils_RmFile on the info sidecar. -/
def secRmInfo {α : Type} (st : SecObjectStore α) (oid : Nat) : SecObjectStore α :=
  { st with fileInfo := fun x => if x = oid then (st.fileInfo x && !(st.rmInfoOk x)) else st.fileInfo x }

/-- Delete of one identifier from both tiers, following SecKey_Delete,
SecCertificate_Delete (hasInfo true) and SecBundle_Delete (hasInfo false),
which share this exact found/deleted counter structure: remove the first RAM
match, remove the payload file if present and count it deleted only when it is
gone afterwards, best-effort remove the info sidecar when the payload file is
gone, then report NO_SUCH_ITEM when nothing was found, ITEM_NON_REMOVABLE when
found and deleted counts differ, SUCCESS otherwise. -/
def Sec_ObjectDelete {α : Type} (hasInfo : Bool) (st : SecObjectStore α) (oid : Nat) :
    Sec_Result × SecObjectStore α :=
  let inRam := st.ram.any (fun p => p.1 == oid)
  let st1 := { st with ram := st.ram.eraseP (fun p => p.1 == oid) }
  let found1 : Nat := if inRam then 1 else 0
  let mainExisted := st1.fileMain oid
  let st2 := if mainExisted then secRmMain st1 oid else st1
  let found2 := found1 + (if mainExisted then 1 else 0)
  let deleted2 := found1 + (if mainExisted && !(st2.fileMain oid) then 1 else 0)
  let st3 := if hasInfo && !(st2.fileMain oid) && st2.fileInfo oid then secRmInfo st2 oid else st2
  let res :=
    if found2 = 0 then Sec_Result.NO_SUCH_ITEM
    else if found2 ≠ deleted2 then Sec_Result.ITEM_NON_REMOVABLE
    else Sec_Result.SUCCESS
  (res, st3)

/-- The _Sec_StoreKeyData backend dispatch: RAM and RAM-soft-wrapped prepend to
the in-memory list after a delete of the identifier; FILE and
FILE-soft-wrapped delete then write the payload file and the info sidecar,
removing both files and returning FAILURE when either write fails; OEM is
rejected with FAILURE. -/
def Sec_StoreKeyData {α : Type} (st : SecObjectStore α) (oid : Nat)
    (location : Sec_StorageLoc) (keyData : α) : Sec_Result × SecObjectStore α :=
  match location with
  | .RAM | .RAM_SOFT_WRAPPED =>
    let st1 := (Sec_ObjectDelete true st oid).2
    (Sec_Result.SUCCESS, { st1 with ram := (oid, keyData) :: st1.ram })
  | .FILE | .FILE_SOFT_WRAPPED =>
    let st1 := (Sec_ObjectDelete true st oid).2
    let wroteMain := st1.writeMainOk oid
    let wroteInfo := wroteMain && st1.writeInfoOk oid
    let st2 := { st1 with
      fileMain := fun x => if x = oid then wroteMain else st1.fileMain x
      fileInfo := fun x => if x = oid then wroteInfo else st1.fileInfo x
      fileData := fun x => if x = oid then keyData else st1.fileData x }
    if wroteMain && wroteInfo then (Sec_Result.SUCCESS, st2)
    else (Sec_Result.FAILURE, secRmInfo (secRmMain st2 oid) oid)
  | .OEM => (Sec_Result.FAILURE, st)

/-- The _Sec_StoreCertificateData backend dispatch.  It differs from the key
variant in three ways, each kept faithfully: only plain RAM and plain FILE are
accepted (the soft-wrapped aliases fall through to the unimplemented-location
return), OEM is rejected with FAILURE, and the FILE branch falls through to
SUCCESS even when a write failed and the half-written files were removed. -/
def Sec_StoreCertificateData {α : Type} (st : SecObjectStore α) (oid : Nat)
    (location : Sec_StorageLoc) (certData : α) : Sec_Result × SecObjectStore α :=
  match location with
  | .RAM =>
    let st1 := (Sec_ObjectDelete true st oid).2
    (Sec_Result.SUCCESS, { st1 with ram := (oid, certData) :: st1.ram })
  | .FILE =>
    let st1 := (Sec_ObjectDelete true st oid).2
    let wroteMain := st1.writeMainOk oid
    let wroteInfo := wroteMain && st1.writeInfoOk oid
    let st2 := { st1 with
      fileMain := fun x => if x = oid then wroteMain else st1.fileMain x
      fileInfo := fun x => if x = oid then wroteInfo else st1.fileInfo x
      fileData := fun x => if x = oid then certData else st1.fileData x }
    if wroteMain && wroteInfo then (Sec_Result.SUCCESS, st2)
    else (Sec_Result.SUCCESS, secRmInfo (secRmMain st2 oid) oid)
  | .OEM => (Sec_Result.FAILURE, st)
  | _ => (Sec_Result.UNIMPLEMENTED_FEATURE, st)

/-- The _Sec_RetrieveKeyData resolution order: in-memory list first (reporting
location RAM), then the filesystem when both the payload file and the info
sidecar exist (reporting location FILE, FAILURE when a read fails), otherwise
NO_SUCH_ITEM. -/
def Sec_RetrieveKeyData {α : Type} (st : SecObjectStore α) (oid : Nat) :
    Sec_Result × Option (Sec_StorageLoc × α) :=
  match st.ram.find? (fun p => p.1 == oid) with
  | some p => (Sec_Result.SUCCESS, some (Sec_StorageLoc.RAM, p.2))
  | none =>
    if st.fileMain oid && st.fileInfo oid then
      if st.readOk oid then (Sec_Result.SUCCESS, some (Sec_StorageLoc.FILE, st.fileData oid))
      else (Sec_Result.FAILURE, none)
    else (Sec_Result.NO_SUCH_ITEM, none)

/-- SecKey_GetInstance: reject the invalid identifier, then retrieve; the
returned handle snapshots the record and the location it was found in. -/
def SecKey_GetInstance {α : Type} (st : SecObjectStore α) (oid : Nat) :
    Sec_Result × Option (Sec_StorageLoc × α) :=
  if oid = SEC_OBJECTID_INVALID then (Sec_Result.INVALID_PARAMETERS, none)
  else Sec_RetrieveKeyData st oid

/-- Cipher algorithms handled by SecCipher_Process (the NATIVEMEM mode aliases
of the source behave identically to their plain counterparts and are
collapsed). -/
inductive Sec_CipherAlgorithm where
  | AES_ECB_NO_PADDING
  | AES_CBC_NO_PADDING
  | AES_ECB_PKCS7_PADDING
  | AES_CBC_PKCS7_PADDING
  | AES_CTR
  | RSA_PKCS1_PADDING
  | RSA_OAEP_PADDING
  deriving DecidableEq, Repr

/-- Cipher direction. -/
inductive Sec_CipherMode where
  | ENCRYPT
  | DECRYPT
  deriving DecidableEq, Repr

/-- The observable state of a cipher handle: algorithm, mode and the last
flag, which calloc initialises to false in SecCipher_GetInstance. -/
structure Sec_CipherHandle where
  algorithm : Sec_CipherAlgorithm
  mode : Sec_CipherMode
  last : Bool
  deriving DecidableEq, Repr

/-- Modelled from the spec: SecCipher_GetRequiredOutputSize is implemented in
sec_security_common.c, absent from src/.  Per section 4.5, AES-ECB/CBC require
block-aligned input (the core feeds the library only whole blocks), PKCS#7
encryption of the last input appends one full pad block after the aligned
prefix, CTR is length preserving, and RSA produces one modulus-sized block
(the exact RSA size is irrelevant to every claim). -/
def SecCipher_GetRequiredOutputSize (algorithm : Sec_CipherAlgorithm)
    (mode : Sec_CipherMode) (inputSize : Nat) (lastInput : Bool) : Option Nat :=
  match algorithm with
  | .AES_ECB_NO_PADDING | .AES_CBC_NO_PADDING =>
    if inputSize % 16 = 0 then some inputSize else none
  | .AES_ECB_PKCS7_PADDING | .AES_CBC_PKCS7_PADDING =>
    match mode with
    | .ENCRYPT =>
      if lastInput then some (inputSize / 16 * 16 + 16)
      else if inputSize % 16 = 0 then some inputSize else none
    | .DECRYPT =>
      if inputSize % 16 = 0 then some inputSize else none
  | .AES_CTR => some inputSize
  | .RSA_PKCS1_PADDING | .RSA_OAEP_PADDING => some 256

/-- Modelled from the spec: SecCipher_PadAESPKCS7Block (sec_security_common.c,
absent from src/) turns the trailing partial block into one full PKCS#7 padded
block. -/
def SecCipher_PadAESPKCS7Block (rem : List Nat) : List Nat :=
  rem ++ List.replicate (16 - rem.length) (16 - rem.length)

/-- Abstraction of the external cryptographic library used by one
SecCipher_Process call: the EVP block-cipher pipeline applied to the
block-aligned bytes handed to EVP_CipherUpdate (padding disabled, so it is
length preserving and EVP_CipherFinal emits nothing), the CTR keystream
application, and the RSA operation (none models a library failure). -/
structure CipherPrims where
  evpU : List Nat → List Nat
  ctrU : List Nat → List Nat
  rsaU : List Nat → Option (List Nat)

/-- SecCipher_Process.  Returns the result code, the updated handle, the bytes
written to the output buffer and the bytesWritten count.  The structure
follows the source: the last-flag guard comes first and the flag is then set
from lastInput unconditionally; a NULL output (outputNull) reports the
required size and returns SUCCESS; a too-small output buffer fails; the
PKCS#7 branch feeds the aligned prefix to the library, appends the encrypted
pad block on encrypt-last, and on decrypt-last validates padding only when the
bytes written by this call reach one AES block. -/
def SecCipher_Process (P : CipherPrims) (h : Sec_CipherHandle) (input : List Nat)
    (lastInput : Bool) (outputNull : Bool) (outputSize : Nat) :
    Sec_Result × Sec_CipherHandle × List Nat × Nat :=
  if h.last then (Sec_Result.FAILURE, h, [], 0)
  else
    let h1 : Sec_CipherHandle := { h with last := lastInput }
    match SecCipher_GetRequiredOutputSize h.algorithm h.mode input.length lastInput with
    | none => (Sec_Result.FAILURE, h1, [], 0)
    | some needed =>
      if outputNull then (Sec_Result.SUCCESS, h1, [], needed)
      else if outputSize < needed then (Sec_Result.FAILURE, h1, [], 0)
      else
        match h.algorithm with
        | .AES_ECB_NO_PADDING | .AES_CBC_NO_PADDING =>
          (Sec_Result.SUCCESS, h1, P.evpU input, (P.evpU input).length)
        | .AES_ECB_PKCS7_PADDING | .AES_CBC_PKCS7_PADDING =>
          let aligned := input.length / 16 * 16
          let out1 := P.evpU (input.take aligned)
          match h.mode, lastInput with
          | .ENCRYPT, true =>
            let padded := P.evpU (SecCipher_PadAESPKCS7Block (input.drop aligned))
            (Sec_Result.SUCCESS, h1, out1 ++ padded, out1.length + padded.length)
          | .DECRYPT, true =>
            let bw := out1.length
            if 16 ≤ bw then
              let pad_val := out1.getD (bw - 1) 0
              if 16 < pad_val ∨ pad_val = 0 then (Sec_Result.INVALID_PADDING, h1, out1, bw)
              else if (out1.drop (bw - pad_val)).all (fun b => b == pad_val) then
                (Sec_Result.SUCCESS, h1, out1, bw - pad_val)
              else (Sec_Result.INVALID_PADDING, h1, out1, bw)
            else (Sec_Result.SUCCESS, h1, out1, bw)
          | _, _ => (Sec_Result.SUCCESS, h1, out1, out1.length)
        | .AES_CTR => (Sec_Result.SUCCESS, h1, P.ctrU input, input.length)
        | .RSA_PKCS1_PADDING | .RSA_OAEP_PADDING =>
          match P.rsaU input with
          | some out => (Sec_Result.SUCCESS, h1, out, out.length)
          | none => (Sec_Result.FAILURE, h1, [], 0)

/-- Arguments of one SecCipher_Process call in a session trace. -/
structure CipherCall where
  input : List Nat
  lastInput : Bool
  outputNull : Bool
  outputSize : Nat

/-- Run a sequence of SecCipher_Process calls on one handle, collecting the
result codes and the final handle. -/
def SecCipher_RunCalls (P : CipherPrims) (h : Sec_CipherHandle) :
    List CipherCall → List Sec_Result × Sec_CipherHandle
  | [] => ([], h)
  | c :: cs =>
    let r := SecCipher_Process P h c.input c.lastInput c.outputNull c.outputSize
    let rest := SecCipher_RunCalls P r.2.1 cs
    (r.1 :: rest.1, rest.2)

/-- Key types (section 3). -/
inductive Sec_KeyType where
  | AES_128
  | AES_256
  | HMAC_128
  | HMAC_160
  | HMAC_256
  | RSA_1024
  | RSA_2048
  | RSA_1024_PUBLIC
  | RSA_2048_PUBLIC
  deriving DecidableEq, Repr

/-- Modelled from the spec: key length as a pure function of the key type
(section 3; the helper lives in sec_security_common.c, absent from src/). -/
def SecKey_GetKeyLenForKeyType : Sec_KeyType → Nat
  | .AES_128 => 16
  | .AES_256 => 32
  | .HMAC_128 => 16
  | .HMAC_160 => 20
  | .HMAC_256 => 32
  | .RSA_1024 => 128
  | .RSA_2048 => 256
  | .RSA_1024_PUBLIC => 128
  | .RSA_2048_PUBLIC => 256

/-- Modelled from the spec: the symmetric key types (section 3). -/
def SecKey_IsSymetric : Sec_KeyType → Bool
  | .AES_128 | .AES_256 | .HMAC_128 | .HMAC_160 | .HMAC_256 => true
  | _ => false

/-- Key container tags relevant to the claims.  DERIVED is the inner kind that
marks a two-input ladder payload inside the envelope; STORE marks a key whose
container is the pre-wrapped envelope itself. -/
inductive Sec_KeyContainer where
  | RAW_AES_128
  | RAW_AES_256
  | RAW_HMAC_128
  | RAW_HMAC_160
  | RAW_HMAC_256
  | DERIVED
  | STORE
  deriving DecidableEq, Repr

/-- The clear key containers accepted by the raw-symmetric and derived
branches of SecOpenSSL_ProcessKeyContainer.  The DER/PEM/RSA branches
re-encode and recurse into the raw RSA branches and the pre-wrapped STORE
branch copies an already validated envelope verbatim; no claim involves them
and they are not modelled. -/
inductive Sec_ClearKeyContainer where
  | RAW_AES_128
  | RAW_AES_256
  | RAW_HMAC_128
  | RAW_HMAC_160
  | RAW_HMAC_256
  | DERIVED
  deriving DecidableEq, Repr

/-- The container tag recorded in the envelope user header for a clear
container. -/
def Sec_ClearKeyContainer.toKC : Sec_ClearKeyContainer → Sec_KeyContainer
  | .RAW_AES_128 => .RAW_AES_128
  | .RAW_AES_256 => .RAW_AES_256
  | .RAW_HMAC_128 => .RAW_HMAC_128
  | .RAW_HMAC_160 => .RAW_HMAC_160
  | .RAW_HMAC_256 => .RAW_HMAC_256
  | .DERIVED => .DERIVED

/-- The exact payload length each clear container branch demands (the literal
length checks of SecOpenSSL_ProcessKeyContainer). -/
def Sec_ClearKeyContainer.reqLen : Sec_ClearKeyContainer → Nat
  | .RAW_AES_128 => 16
  | .RAW_AES_256 => 32
  | .RAW_HMAC_128 => 16
  | .RAW_HMAC_160 => 20
  | .RAW_HMAC_256 => 32
  | .DERIVED => 32

/-- The key type each clear container branch assigns to key_data.info. -/
def Sec_ClearKeyContainer.keyType : Sec_ClearKeyContainer → Sec_KeyType
  | .RAW_AES_128 => .AES_128
  | .RAW_AES_256 => .AES_256
  | .RAW_HMAC_128 => .HMAC_128
  | .RAW_HMAC_160 => .HMAC_160
  | .RAW_HMAC_256 => .HMAC_256
  | .DERIVED => .AES_128

/-- Modelled from the spec: the key-store envelope built by SecStore_StoreData
in sec_security_utils.c, absent from src/ (sections 4.2 and 6): a user header
recording the inner container kind, the AES-CBC/PKCS#7 ciphertext of the
payload (the cipher, keyed by the store key and a fresh IV, is abstracted into
the enc field of StorePrims), the MAC over header and ciphertext, and the
self-described payload length. -/
structure SecStoreBlob where
  inner_kc_type : Sec_KeyContainer
  ciphertext : List Nat
  mac : List Nat
  dataLen : Nat
  deriving DecidableEq, Repr

/-- Abstraction of the envelope cryptography supplied by the vetted library:
payload encryption and decryption under the store key (IV folded in) and the
MAC under the MAC-generation key over the authenticated header and
ciphertext. -/
structure StorePrims where
  enc : List Nat → List Nat
  dec : List Nat → List Nat
  macF : Sec_KeyContainer → List Nat → List Nat

/-- Modelled from the spec: SecStore_StoreData seals a payload into the
envelope (section 4.2). -/
def SecStore_StoreData (P : StorePrims) (inner : Sec_KeyContainer)
    (payload : List Nat) : SecStoreBlob :=
  { inner_kc_type := inner
    ciphertext := P.enc payload
    mac := P.macF inner (P.enc payload)
    dataLen := payload.length }

/-- Modelled from the spec: SecStore_RetrieveData recomputes and compares the
MAC, decrypts, and confirms the declared length (section 4.2); any mismatch is
a failure (none). -/
def SecStore_RetrieveData (P : StorePrims) (blob : SecStoreBlob) :
    Option (Sec_KeyContainer × List Nat) :=
  if P.macF blob.inner_kc_type blob.ciphertext ≠ blob.mac then none
  else
    let payload := P.dec blob.ciphertext
    if payload.length ≠ blob.dataLen then none
    else some (blob.inner_kc_type, payload)

/-- The info portion of a key record: key type and container kind. -/
structure Sec_KeyInfo where
  key_type : Sec_KeyType
  kc_type : Sec_KeyContainer
  deriving DecidableEq, Repr

/-- A key record as built by SecOpenSSL_ProcessKeyContainer: info plus the
envelope blob. -/
structure Sec_KeyData where
  info : Sec_KeyInfo
  kc : SecStoreBlob
  deriving DecidableEq, Repr

/-- Modelled from the spec: the container maximum of roughly 2 KiB
(section 4.3; the constant lives in the headers, absent from src/). -/
def SEC_KEYCONTAINER_MAX_LEN : Nat := 2048

/-- The raw-symmetric and derived branches of SecOpenSSL_ProcessKeyContainer:
reject the invalid identifier and oversized payloads, demand the exact
per-container length, then seal the payload in the envelope and return a
STORE-kind key record with the branch key type. -/
def SecOpenSSL_ProcessKeyContainer (P : StorePrims) (data_type : Sec_ClearKeyContainer)
    (data : List Nat) (objectId : Nat) : Sec_Result × Option Sec_KeyData :=
  if objectId = SEC_OBJECTID_INVALID then (Sec_Result.FAILURE, none)
  else if SEC_KEYCONTAINER_MAX_LEN < data.length then (Sec_Result.FAILURE, none)
  else if data.length ≠ data_type.reqLen then (Sec_Result.INVALID_PARAMETERS, none)
  else
    (Sec_Result.SUCCESS, some
      { info := { key_type := data_type.keyType, kc_type := Sec_KeyContainer.STORE }
        kc := SecStore_StoreData P data_type.toKC data })

/-- Abstraction of the raw AES-ECB block encryption used by the emulated key
ladder: aesEcb key block. -/
structure LadderPrims where
  aesEcb : List Nat → List Nat → List Nat

/-- The _Sec_SymetricFromKeyHandle unwrap: only symmetric STORE-kind keys are
accepted, the requested length must equal the key-type length, the envelope is
opened via SecStore_RetrieveData, and then either the derived two-step AES-ECB
ladder expands a 32-byte payload into a 16-byte key under the device root key,
or the raw payload is copied out when its stored length matches. -/
def Sec_SymetricFromKeyHandle (P : StorePrims) (L : LadderPrims) (rootKey : List Nat)
    (keyData : Sec_KeyData) (out_key_len : Nat) : Option (List Nat) :=
  if ¬ SecKey_IsSymetric keyData.info.key_type then none
  else if out_key_len ≠ SecKey_GetKeyLenForKeyType keyData.info.key_type then none
  else if keyData.info.kc_type ≠ Sec_KeyContainer.STORE then none
  else
    match SecStore_RetrieveData P keyData.kc with
    | none => none
    | some (inner, payload) =>
      if inner = Sec_KeyContainer.DERIVED then
        if keyData.kc.dataLen ≠ 32 then none
        else if out_key_len ≠ 16 then none
        else
          let ladder1 := L.aesEcb rootKey (payload.take 16)
          some (L.aesEcb ladder1 (payload.drop 16))
      else
        if out_key_len ≠ keyData.kc.dataLen then none
        else some payload

/-- Provision a clear container and immediately unwrap the resulting record at
its key-type length; the composition the round-trip claim is about. -/
def provisionThenUnwrap (P : StorePrims) (L : LadderPrims) (rootKey : List Nat)
    (data_type : Sec_ClearKeyContainer) (data : List Nat) (objectId : Nat) :
    Option (List Nat) :=
  match SecOpenSSL_ProcessKeyContainer P data_type data objectId with
  | (Sec_Result.SUCCESS, some kd) =>
    Sec_SymetricFromKeyHandle P L rootKey kd (SecKey_GetKeyLenForKeyType kd.info.key_type)
  | _ => none

/-- The HKDF Expand chain of SecKey_Derive_HKDF: T 0 is empty (the first MAC
update is skipped when t_len is zero) and T (i+1) is the MAC under the PRK of
the previous block, the info bytes and the single-byte counter i+1 (a SEC_BYTE
in the source, hence reduced modulo 256).  The MAC itself is supplied by the
library and abstracted as the function mac. -/
def hkdfT (mac : List Nat → List Nat → List Nat) (prk info : List Nat) : Nat → List Nat
  | 0 => []
  | i + 1 => mac prk (hkdfT mac prk info i ++ info ++ [(i + 1) % 256])

/-- One memcpy into a byte buffer modelled as a function from offsets to
bytes: positions covered by src are overwritten, the rest keep their previous
contents. -/
def writeBytes (buf : Nat → Nat) (off : Nat) (src : List Nat) : Nat → Nat :=
  fun idx => if off ≤ idx ∧ idx < off + src.length then src.getD (idx - off) 0 else buf idx

/-- The out_key buffer of SecKey_Derive_HKDF after the first n iterations of
the Expand loop: block i is written at offset (i-1)*d with copy length
k % d for the final block (i = r) and d otherwise - exactly the cp_len
computation of the source.  The initial buffer contents are the uninitialised
stack bytes. -/
def hkdfFill (mac : List Nat → List Nat → List Nat) (prk info : List Nat)
    (k d r : Nat) : Nat → (Nat → Nat) → (Nat → Nat)
  | 0, buf => buf
  | n + 1, buf =>
    let cp := if n + 1 = r then k % d else d
    writeBytes (hkdfFill mac prk info k d r n buf) (n * d)
      ((hkdfT mac prk info (n + 1)).take cp)

/-- The derived key bytes that SecKey_Derive_HKDF hands to SecKey_Provision:
Extract computes PRK as the MAC of the salt under the base MAC key, the
Expand loop runs r = k/d rounded up iterations filling out_key, and the
provision call reads k bytes of the out_key stack buffer, whose contents
before the loop are the arbitrary function g. -/
def SecKey_Derive_HKDF_outKey (mac : List Nat → List Nat → List Nat)
    (baseMacKey salt info : List Nat) (k d : Nat) (g : Nat → Nat) : List Nat :=
  let prk := mac baseMacKey salt
  let r := k / d + (if k % d = 0 then 0 else 1)
  (List.range k).map (hkdfFill mac prk info k d r r g)

/-- HKDF following the words of the specification (section 4.6): Extract the
PRK from the salt under the base MAC key, Expand across r = k/d rounded up
blocks T 1 .. T r, concatenate and truncate to the derived key length k.
This definition is the reference the code is compared against. -/
def hkdf_spec (mac : List Nat → List Nat → List Nat)
    (baseMacKey salt info : List Nat) (k d : Nat) : List Nat :=
  let prk := mac baseMacKey salt
  let r := (k + d - 1) / d
  (((List.range r).map (fun i => hkdfT mac prk info (i + 1))).flatten).take k

/-- A concrete MAC stub used to evaluate the embeddings on closed inputs: it
returns a fixed 32-byte block. -/
def mac0 : List Nat → List Nat → List Nat := fun _ _ => List.replicate 32 5

/-- Concrete envelope primitives for closed evaluations: identity cipher and a
MAC that echoes the ciphertext. -/
def storePrims0 : StorePrims :=
  { enc := id, dec := id, macF := fun _ ct => ct }

/-- Concrete ladder primitive for closed evaluations. -/
def ladderPrims0 : LadderPrims :=
  { aesEcb := fun _ b => b }

/-- Concrete cipher-library primitives for closed evaluations: identity block
pipeline and keystream, RSA always failing. -/
def cipherPrims0 : CipherPrims :=
  { evpU := id, ctrU := id, rsaU := fun _ => none }

/-- A fresh AES-CTR encryption handle. -/
def ctrHandle0 : Sec_CipherHandle :=
  { algorithm := Sec_CipherAlgorithm.AES_CTR, mode := Sec_CipherMode.ENCRYPT, last := false }

/-- A fresh AES-CBC-PKCS7 decryption handle. -/
def cbcDecHandle0 : Sec_CipherHandle :=
  { algorithm := Sec_CipherAlgorithm.AES_CBC_PKCS7_PADDING, mode := Sec_CipherMode.DECRYPT, last := false }

/-- A call carrying the last-input flag. -/
def callLast0 : CipherCall :=
  { input := [], lastInput := true, outputNull := false, outputSize := 0 }

/-- A subsequent ordinary call. -/
def callPlain0 : CipherCall :=
  { input := [], lastInput := false, outputNull := false, outputSize := 0 }

/-- One properly PKCS#7 padded plaintext block (pad value 1). -/
def paddedBlock0 : List Nat := List.replicate 15 2 ++ [1]

/-- An empty object store over Nat records in which every filesystem operation
succeeds. -/
def store0 : SecObjectStore Nat :=
  { ram := []
    fileMain := fun _ => false
    fileInfo := fun _ => false
    fileData := fun _ => 0
    readOk := fun _ => true
    writeMainOk := fun _ => true
    writeInfoOk := fun _ => true
    rmMainOk := fun _ => true
    rmInfoOk := fun _ => true }

/-- An object store in which writing the payload file fails for every
identifier. -/
def storeWriteFails : SecObjectStore Nat :=
  { store0 with writeMainOk := fun _ => false }

/-- An object store holding one RAM record under identifier 5. -/
def storeOneRam : SecObjectStore Nat :=
  { store0 with ram := [(5, 77)] }

/-- The pad value the decrypt-last path reads: the final byte of the bytes the
library wrote for this call. -/
def secPadVal (out : List Nat) : Nat := out.getD (out.length - 1) 0

/-- Sixteen concrete key bytes. -/
def rawData0 : List Nat := List.range 16

/-! ## Theorems -/

/-- Helper: a list with at most one match contains no match after erasing the
first match. -/
theorem eraseP_no_match {α : Type} (p : α → Bool) :
    ∀ l : List α, l.countP p ≤ 1 → ∀ x ∈ l.eraseP p, p x = false := by
  intro l
  induction l with
  | nil => intro _ x hx; simp at hx
  | cons a t ih =>
    intro hcount x hx
    by_cases hpa : p a
    · rw [List.eraseP_cons_of_pos hpa] at hx
      rw [List.countP_cons_of_pos _ _ hpa] at hcount
      have ht : t.countP p = 0 := by omega
      have := (List.countP_eq_zero).1 ht
      simpa using this x hx
    · rw [List.eraseP_cons_of_neg (by simpa using hpa)] at hx
      rw [List.countP_cons_of_neg _ _ hpa] at hcount
      rw [List.mem_cons] at hx
      rcases hx with hx | hx
      · subst hx; simpa using hpa
      · exact ih hcount x hx

/-- C2: for certificates stored to the File location the claim demands that a
failed write of either file yields FAILURE after cleanup.  The source instead
falls through to return SUCCESS after removing the half-written files; this
theorem evaluates the embedded _Sec_StoreCertificateData at the failing input
(File location, payload-file write fails) and shows the call reports
SUCCESS, contradicting the claim and confirming the divergence the
specification itself flags as a suspect behavior. -/
theorem C2_cert_failed_write_returns_success :
    (Sec_StoreCertificateData storeWriteFails 7 Sec_StorageLoc.FILE 55).1 = Sec_Result.SUCCESS ∧
    Sec_Result.SUCCESS ≠ Sec_Result.FAILURE := by
  exact ⟨rfl, by decide⟩

/-- C8 counterexample: the claim says an OEM-location store fails with
UNIMPLEMENTED_FEATURE; at a concrete input both _Sec_StoreKeyData and
_Sec_StoreCertificateData return the generic FAILURE code instead, which
differs from UNIMPLEMENTED_FEATURE. -/
theorem C8_counterexample_oem_result_code :
    (Sec_StoreKeyData store0 7 Sec_StorageLoc.OEM 0).1 = Sec_Result.FAILURE ∧
    (Sec_StoreCertificateData store0 7 Sec_StorageLoc.OEM 0).1 = Sec_Result.FAILURE ∧
    Sec_Result.FAILURE ≠ Sec_Result.UNIMPLEMENTED_FEATURE := by
  exact ⟨rfl, rfl, by decide⟩

/-- C8 amended: storing a key or a certificate to the OEM location fails with
the generic FAILURE result code and leaves the store state untouched, so no
record is created in any tier. -/
theorem C8_oem_store_fails_with_failure {α : Type} (st : SecObjectStore α)
    (oid : Nat) (d : α) :
    Sec_StoreKeyData st oid Sec_StorageLoc.OEM d = (Sec_Result.FAILURE, st) ∧
    Sec_StoreCertificateData st oid Sec_StorageLoc.OEM d = (Sec_Result.FAILURE, st) :=
  ⟨rfl, rfl⟩

/-- C3: two SecKey_Derive_HKDF runs with identical nonce, salt, info and
derived type differ when the derived type length is an exact multiple of the
digest length, because the final-block copy length key_length mod
digest_length is then zero and the provisioned bytes are whatever the out_key
stack buffer already held: here the two runs differ only in those
uninitialised stack contents (all zeros versus all ones) yet produce different
derived keys, refuting bit-identical determinism. -/
theorem C3_hkdf_output_depends_on_uninitialised_stack :
    SecKey_Derive_HKDF_outKey mac0 [1] [2] [3] 32 32 (fun _ => 0) ≠
    SecKey_Derive_HKDF_outKey mac0 [1] [2] [3] 32 32 (fun _ => 1) := by
  decide

/-- C4: at a derived type length equal to the digest length (32 = 32, the
HMAC-256 key derived via HMAC-SHA256) the code output is the untouched stack
buffer and differs from the reference HKDF Extract/Expand/truncate value,
because the final (and only) Expand block is copied with length
32 mod 32 = 0. -/
theorem C4_hkdf_exact_multiple_diverges_from_reference :
    SecKey_Derive_HKDF_outKey mac0 [1] [2] [3] 32 32 (fun _ => 0) ≠
    hkdf_spec mac0 [1] [2] [3] 32 32 := by
  decide

/-- Helper: the state left by a delete has the first RAM match erased, keeps
every filesystem capability map and the stored file contents, and the payload
file for the deleted identifier remains only when it existed and its removal
failed. -/
theorem Sec_ObjectDelete_state {α : Type} (hasInfo : Bool) (st : SecObjectStore α) (oid : Nat) :
    ((Sec_ObjectDelete hasInfo st oid).2).ram = st.ram.eraseP (fun p => p.1 == oid) ∧
    ((Sec_ObjectDelete hasInfo st oid).2).fileData = st.fileData ∧
    ((Sec_ObjectDelete hasInfo st oid).2).readOk = st.readOk ∧
    ((Sec_ObjectDelete hasInfo st oid).2).writeMainOk = st.writeMainOk ∧
    ((Sec_ObjectDelete hasInfo st oid).2).writeInfoOk = st.writeInfoOk ∧
    ((Sec_ObjectDelete hasInfo st oid).2).rmMainOk = st.rmMainOk ∧
    ((Sec_ObjectDelete hasInfo st oid).2).rmInfoOk = st.rmInfoOk ∧
    ((Sec_ObjectDelete hasInfo st oid).2).fileMain oid = (st.fileMain oid && !(st.rmMainOk oid)) := by
  unfold Sec_ObjectDelete
  cases hm : st.fileMain oid <;>
    simp [secRmMain, secRmInfo, hm] <;> split <;> simp [secRmMain, secRmInfo, hm]

/-- Helper: closed form of the delete result code in terms of the two tier
matches and the removability of the payload file. -/
theorem Sec_ObjectDelete_result {α : Type} (hasInfo : Bool) (st : SecObjectStore α) (oid : Nat) :
    (Sec_ObjectDelete hasInfo st oid).1 =
      if st.ram.any (fun p => p.1 == oid) = false ∧ st.fileMain oid = false then
        Sec_Result.NO_SUCH_ITEM
      else if st.fileMain oid = true ∧ st.rmMainOk oid = false then
        Sec_Result.ITEM_NON_REMOVABLE
      else Sec_Result.SUCCESS := by
  unfold Sec_ObjectDelete
  cases ha : st.ram.any (fun p => p.1 == oid) <;> cases hm : st.fileMain oid <;>
    cases hr : st.rmMainOk oid <;> simp [secRmMain, ha, hm, hr]

/-- C7: delete over both tiers (keys, certificates and bundles share the
embedded function - bundles simply have no info sidecar).  The result is
always one of NO_SUCH_ITEM, ITEM_NON_REMOVABLE and SUCCESS; it is NO_SUCH_ITEM
exactly when neither the in-memory list nor the filesystem held a record for
the identifier, ITEM_NON_REMOVABLE exactly when the payload file matched but
could not be removed (the RAM tier is always removable), and after a
successful delete of an identifier with at most one in-memory record a second
delete of the same identifier returns NO_SUCH_ITEM. -/
theorem C7_delete_two_tier_semantics {α : Type} (st : SecObjectStore α)
    (hasInfo : Bool) (oid : Nat)
    (huniq : st.ram.countP (fun p => p.1 == oid) ≤ 1) :
    ((Sec_ObjectDelete hasInfo st oid).1 = Sec_Result.NO_SUCH_ITEM ∨
     (Sec_ObjectDelete hasInfo st oid).1 = Sec_Result.ITEM_NON_REMOVABLE ∨
     (Sec_ObjectDelete hasInfo st oid).1 = Sec_Result.SUCCESS) ∧
    ((Sec_ObjectDelete hasInfo st oid).1 = Sec_Result.NO_SUCH_ITEM ↔
      (st.ram.any (fun p => p.1 == oid) = false ∧ st.fileMain oid = false)) ∧
    ((Sec_ObjectDelete hasInfo st oid).1 = Sec_Result.ITEM_NON_REMOVABLE ↔
      (st.fileMain oid = true ∧ st.rmMainOk oid = false)) ∧
    ((Sec_ObjectDelete hasInfo st oid).1 = Sec_Result.SUCCESS →
      (Sec_ObjectDelete hasInfo (Sec_ObjectDelete hasInfo st oid).2 oid).1 =
        Sec_Result.NO_SUCH_ITEM) := by
  have hstate := Sec_ObjectDelete_state hasInfo st oid
  have hany : ((Sec_ObjectDelete hasInfo st oid).2).ram.any (fun p => p.1 == oid) = false := by
    rw [hstate.1, List.any_eq_false]
    intro x hx
    simp [eraseP_no_match _ _ huniq x hx]
  rw [Sec_ObjectDelete_result hasInfo st oid,
      Sec_ObjectDelete_result hasInfo (Sec_ObjectDelete hasInfo st oid).2 oid, hany,
      hstate.2.2.2.2.2.2.2]
  cases ha : st.ram.any (fun p => p.1 == oid) <;> cases hm : st.fileMain oid <;>
    cases hr : st.rmMainOk oid <;> simp

/-- C7 witness: a store holding exactly one RAM record under identifier 5 and
no files; the delete reports SUCCESS (so not NO_SUCH_ITEM and not
ITEM_NON_REMOVABLE) and a second delete reports NO_SUCH_ITEM. -/
theorem C7_delete_two_tier_semantics_witness :
    ((Sec_ObjectDelete true storeOneRam 5).1 = Sec_Result.NO_SUCH_ITEM ∨
     (Sec_ObjectDelete true storeOneRam 5).1 = Sec_Result.ITEM_NON_REMOVABLE ∨
     (Sec_ObjectDelete true storeOneRam 5).1 = Sec_Result.SUCCESS) ∧
    ((Sec_ObjectDelete true storeOneRam 5).1 = Sec_Result.NO_SUCH_ITEM ↔
      (storeOneRam.ram.any (fun p => p.1 == 5) = false ∧ storeOneRam.fileMain 5 = false)) ∧
    ((Sec_ObjectDelete true storeOneRam 5).1 = Sec_Result.ITEM_NON_REMOVABLE ↔
      (storeOneRam.fileMain 5 = true ∧ storeOneRam.rmMainOk 5 = false)) ∧
    ((Sec_ObjectDelete true storeOneRam 5).1 = Sec_Result.SUCCESS →
      (Sec_ObjectDelete true (Sec_ObjectDelete true storeOneRam 5).2 5).1 =
        Sec_Result.NO_SUCH_ITEM) :=
  C7_delete_two_tier_semantics storeOneRam true 5 (by decide)

/-- C10: soft-wrapped storage-location tags do not round-trip.  Storing a key
at RAM-soft-wrapped and looking it up with SecKey_GetInstance succeeds but
reports plain RAM; storing at FILE-soft-wrapped (with working filesystem)
reports plain FILE; and a retrieval never reports a soft-wrapped location from
any state at all. -/
theorem C10_soft_wrapped_location_not_round_tripped {α : Type}
    (st st2 : SecObjectStore α) (oid : Nat) (kd : α)
    (hid : oid ≠ SEC_OBJECTID_INVALID)
    (huniq : st.ram.countP (fun p => p.1 == oid) ≤ 1)
    (hwm : st.writeMainOk oid = true)
    (hwi : st.writeInfoOk oid = true)
    (hr : st.readOk oid = true) :
    SecKey_GetInstance (Sec_StoreKeyData st oid Sec_StorageLoc.RAM_SOFT_WRAPPED kd).2 oid
      = (Sec_Result.SUCCESS, some (Sec_StorageLoc.RAM, kd)) ∧
    SecKey_GetInstance (Sec_StoreKeyData st oid Sec_StorageLoc.FILE_SOFT_WRAPPED kd).2 oid
      = (Sec_Result.SUCCESS, some (Sec_StorageLoc.FILE, kd)) ∧
    (Sec_RetrieveKeyData st2 oid).2.map Prod.fst ≠ some Sec_StorageLoc.RAM_SOFT_WRAPPED ∧
    (Sec_RetrieveKeyData st2 oid).2.map Prod.fst ≠ some Sec_StorageLoc.FILE_SOFT_WRAPPED := by
  have hstate := Sec_ObjectDelete_state true st oid
  have hfind : (((Sec_ObjectDelete true st oid).2).ram.find? (fun p => p.1 == oid)) = none := by
    rw [hstate.1, List.find?_eq_none]
    intro x hx
    simp [eraseP_no_match _ _ huniq x hx]
  refine ⟨?_, ?_, ?_, ?_⟩
  · simp [Sec_StoreKeyData, SecKey_GetInstance, Sec_RetrieveKeyData, hid]
  · simp [Sec_StoreKeyData, SecKey_GetInstance, Sec_RetrieveKeyData, hid,
      hstate.2.2.1, hstate.2.2.2.1, hstate.2.2.2.2.1, hwm, hwi, hr, hfind]
  · cases hf : st2.ram.find? (fun p => p.1 == oid) with
    | none =>
      simp only [Sec_RetrieveKeyData, hf]
      split
      · split
        · simp
        · simp
      · simp
    | some p => simp [Sec_RetrieveKeyData, hf]
  · cases hf : st2.ram.find? (fun p => p.1 == oid) with
    | none =>
      simp only [Sec_RetrieveKeyData, hf]
      split
      · split
        · simp
        · simp
      · simp
    | some p => simp [Sec_RetrieveKeyData, hf]

/-- C10 witness: concrete empty store with a working filesystem, identifier 5,
record 9. -/
theorem C10_soft_wrapped_location_witness :
    SecKey_GetInstance (Sec_StoreKeyData store0 5 Sec_StorageLoc.RAM_SOFT_WRAPPED 9).2 5
      = (Sec_Result.SUCCESS, some (Sec_StorageLoc.RAM, 9)) ∧
    SecKey_GetInstance (Sec_StoreKeyData store0 5 Sec_StorageLoc.FILE_SOFT_WRAPPED 9).2 5
      = (Sec_Result.SUCCESS, some (Sec_StorageLoc.FILE, 9)) ∧
    (Sec_RetrieveKeyData store0 5).2.map Prod.fst ≠ some Sec_StorageLoc.RAM_SOFT_WRAPPED ∧
    (Sec_RetrieveKeyData store0 5).2.map Prod.fst ≠ some Sec_StorageLoc.FILE_SOFT_WRAPPED :=
  C10_soft_wrapped_location_not_round_tripped store0 store0 5 9 (by decide) (by decide) rfl rfl rfl

/-- Helper: a handle whose last flag is set rejects every call with FAILURE
and stays unchanged. -/
theorem SecCipher_Process_of_last (P : CipherPrims) (h : Sec_CipherHandle)
    (input : List Nat) (lastInput outputNull : Bool) (outputSize : Nat)
    (hl : h.last = true) :
    SecCipher_Process P h input lastInput outputNull outputSize =
      (Sec_Result.FAILURE, h, [], 0) := by
  unfold SecCipher_Process
  simp [hl]

/-- Helper: the handle returned by SecCipher_Process is the input handle when
the guard fired and otherwise the input handle with the last flag set from
lastInput; no branch resets the flag. -/
theorem SecCipher_Process_handle_eq (P : CipherPrims) (h : Sec_CipherHandle)
    (input : List Nat) (lastInput outputNull : Bool) (outputSize : Nat) :
    (SecCipher_Process P h input lastInput outputNull outputSize).2.1 =
      if h.last then h else { h with last := lastInput } := by
  unfold SecCipher_Process
  by_cases hl : h.last
  · simp [hl]
  · simp only [hl, Bool.false_eq_true, if_false]
    cases hsz : SecCipher_GetRequiredOutputSize h.algorithm h.mode input.length lastInput
    · rfl
    · repeat' split
      all_goals rfl

/-- Helper: a call with lastInput true leaves the last flag set. -/
theorem SecCipher_Process_sets_last (P : CipherPrims) (h : Sec_CipherHandle)
    (input : List Nat) (outputNull : Bool) (outputSize : Nat) :
    ((SecCipher_Process P h input true outputNull outputSize).2.1).last = true := by
  rw [SecCipher_Process_handle_eq]
  by_cases hl : h.last <;> simp [hl]

/-- Helper: once the last flag is set, a whole run of further calls produces
only FAILURE results and never changes the handle. -/
theorem SecCipher_RunCalls_of_last (P : CipherPrims) (cs : List CipherCall) :
    ∀ h : Sec_CipherHandle, h.last = true →
      ((SecCipher_RunCalls P h cs).1.all (fun r => r == Sec_Result.FAILURE) = true ∧
       (SecCipher_RunCalls P h cs).2 = h) := by
  induction cs with
  | nil => intro h hl; simp [SecCipher_RunCalls]
  | cons c cs ih =>
    intro h hl
    have hstep := SecCipher_Process_of_last P h c.input c.lastInput c.outputNull c.outputSize hl
    have hrest := ih h hl
    simp [SecCipher_RunCalls, hstep, hrest.1, hrest.2]

/-- Helper: after running any prefix followed by a call with lastInput true,
the last flag of the final handle is set. -/
theorem SecCipher_RunCalls_append_last (P : CipherPrims) (c : CipherCall)
    (hc : c.lastInput = true) :
    ∀ (pre : List CipherCall) (h : Sec_CipherHandle),
      ((SecCipher_RunCalls P h (pre ++ [c])).2).last = true := by
  intro pre
  induction pre with
  | nil =>
    intro h
    simp only [List.nil_append, SecCipher_RunCalls]
    rw [hc]
    exact SecCipher_Process_sets_last P h c.input c.outputNull c.outputSize
  | cons p ps ih =>
    intro h
    simp only [List.cons_append, SecCipher_RunCalls]
    exact ih _

/-- C5: a cipher session is single-shot for the last flag.  Whatever calls
precede it, once one SecCipher_Process call carried lastInput true, every
subsequent SecCipher_Process call on the handle returns FAILURE. -/
theorem C5_after_last_every_process_fails (P : CipherPrims) (h : Sec_CipherHandle)
    (pre post : List CipherCall) (c : CipherCall) (hc : c.lastInput = true) :
    ((SecCipher_RunCalls P (SecCipher_RunCalls P h (pre ++ [c])).2 post).1).all
      (fun r => r == Sec_Result.FAILURE) = true :=
  (SecCipher_RunCalls_of_last P post _ (SecCipher_RunCalls_append_last P c hc pre h)).1

/-- C5 witness: a fresh AES-CTR handle, one call with lastInput true, then two
further calls; both report FAILURE. -/
theorem C5_after_last_every_process_fails_witness :
    ((SecCipher_RunCalls cipherPrims0
        (SecCipher_RunCalls cipherPrims0 ctrHandle0 ([] ++ [callLast0])).2
        [callPlain0, callLast0]).1).all (fun r => r == Sec_Result.FAILURE) = true :=
  C5_after_last_every_process_fails cipherPrims0 ctrHandle0 [] [callPlain0, callLast0]
    callLast0 rfl

/-- C9: a required-output-size query (output NULL) still records its lastInput
argument.  On a fresh handle the call writes no bytes, reports SUCCESS
exactly when the size helper succeeds with bytesWritten equal to the required
size, yet leaves the handle with the last flag set, so every subsequent call
on the session fails with FAILURE even though no bytes were enciphered. -/
theorem C9_size_query_records_last_flag (P : CipherPrims) (h : Sec_CipherHandle)
    (input : List Nat) (outputSize : Nat) (post : List CipherCall)
    (hl : h.last = false) :
    SecCipher_Process P h input true true outputSize =
      ((if (SecCipher_GetRequiredOutputSize h.algorithm h.mode input.length true).isSome
        then Sec_Result.SUCCESS else Sec_Result.FAILURE),
       { h with last := true }, [],
       (SecCipher_GetRequiredOutputSize h.algorithm h.mode input.length true).getD 0) ∧
    ((SecCipher_RunCalls P { h with last := true } post).1).all
      (fun r => r == Sec_Result.FAILURE) = true := by
  constructor
  · unfold SecCipher_Process
    cases hsz : SecCipher_GetRequiredOutputSize h.algorithm h.mode input.length true <;>
      simp [hl, hsz]
  · exact (SecCipher_RunCalls_of_last P post _ rfl).1

/-- C9 witness: a size query with lastInput true on a fresh AES-CTR handle for
one input byte, then one ordinary call, which fails. -/
theorem C9_size_query_records_last_flag_witness :
    SecCipher_Process cipherPrims0 ctrHandle0 [3] true true 0 =
      (Sec_Result.SUCCESS, { ctrHandle0 with last := true }, [], 1) ∧
    ((SecCipher_RunCalls cipherPrims0 { ctrHandle0 with last := true } [callPlain0]).1).all
      (fun r => r == Sec_Result.FAILURE) = true :=
  C9_size_query_records_last_flag cipherPrims0 ctrHandle0 [3] 0 [callPlain0] rfl

/-- C6 counterexample: a decrypt-last SecCipher_Process call on a fresh
AES-CBC-PKCS7 handle with empty input produces zero output bytes, which is
below one AES block, so the padding validation demanded by the claim is
skipped entirely and the call reports SUCCESS rather than INVALID_PADDING,
even though a zero-byte decryption carries no valid PKCS#7 padding. -/
theorem C6_counterexample_sub_block_decrypt_skips_validation :
    (SecCipher_Process cipherPrims0 cbcDecHandle0 [] true false 16).1 = Sec_Result.SUCCESS ∧
    Sec_Result.SUCCESS ≠ Sec_Result.INVALID_PADDING := by
  exact ⟨rfl, by decide⟩

/-- C6 amended: on an AES-ECB/CBC PKCS#7 decrypt session, a last call whose
library output reaches at least one AES block validates the padding: the call
succeeds exactly when the pad value lies in 1..16 and every one of the
pad-value trailing bytes equals the pad value, any violation yields
INVALID_PADDING, and on success the pad bytes are excluded from bytesWritten.
A last call whose output stays below one block (empty final input) skips the
validation and returns SUCCESS. -/
theorem C6_decrypt_last_padding_validated_from_one_block (P : CipherPrims)
    (h : Sec_CipherHandle) (input : List Nat) (outputSize : Nat)
    (halg : h.algorithm = Sec_CipherAlgorithm.AES_ECB_PKCS7_PADDING ∨
            h.algorithm = Sec_CipherAlgorithm.AES_CBC_PKCS7_PADDING)
    (hmode : h.mode = Sec_CipherMode.DECRYPT)
    (hlast : h.last = false)
    (haligned : input.length % 16 = 0)
    (hout : input.length ≤ outputSize)
    (hE : (P.evpU input).length = input.length)
    (hbig : 16 ≤ input.length) :
    ((SecCipher_Process P h input true false outputSize).1 = Sec_Result.SUCCESS ∨
     (SecCipher_Process P h input true false outputSize).1 = Sec_Result.INVALID_PADDING) ∧
    ((SecCipher_Process P h input true false outputSize).1 = Sec_Result.SUCCESS ↔
      (1 ≤ secPadVal (P.evpU input) ∧ secPadVal (P.evpU input) ≤ 16 ∧
       ((P.evpU input).drop ((P.evpU input).length - secPadVal (P.evpU input))).all
         (fun b => b == secPadVal (P.evpU input)) = true)) ∧
    ((SecCipher_Process P h input true false outputSize).1 = Sec_Result.SUCCESS →
      (SecCipher_Process P h input true false outputSize).2.2.2 =
        input.length - secPadVal (P.evpU input)) := by
  have htake : input.take (input.length / 16 * 16) = input := by
    rw [Nat.div_mul_cancel (Nat.dvd_of_mod_eq_zero haligned), List.take_length]
  have hb16 : 16 ≤ (P.evpU input).length := by rw [hE]; exact hbig
  have hrun : SecCipher_Process P h input true false outputSize =
      (if 16 < secPadVal (P.evpU input) ∨ secPadVal (P.evpU input) = 0 then
         (Sec_Result.INVALID_PADDING, { h with last := true }, P.evpU input, (P.evpU input).length)
       else if ((P.evpU input).drop ((P.evpU input).length - secPadVal (P.evpU input))).all
           (fun b => b == secPadVal (P.evpU input)) then
         (Sec_Result.SUCCESS, { h with last := true }, P.evpU input,
          (P.evpU input).length - secPadVal (P.evpU input))
       else
         (Sec_Result.INVALID_PADDING, { h with last := true }, P.evpU input,
          (P.evpU input).length)) := by
    rcases halg with halg | halg <;>
      · unfold SecCipher_Process
        rw [halg, hmode]
        simp only [SecCipher_GetRequiredOutputSize, haligned, if_pos rfl, hlast,
          Bool.false_eq_true, if_false, Bool.false_eq_true, ite_false, htake,
          Nat.not_lt.2 hout, secPadVal]
        simp [htake, Nat.not_lt.2 hout, hb16, secPadVal]
  rw [hrun]
  by_cases h1 : 16 < secPadVal (P.evpU input) ∨ secPadVal (P.evpU input) = 0
  · constructor
    · simp [h1]
    constructor
    · simp only [if_pos h1]
      constructor
      · intro hx; simp at hx
      · rintro ⟨hge, hle, _⟩
        rcases h1 with h1 | h1
        · omega
        · omega
    · simp [h1]
  · by_cases h2 : ((P.evpU input).drop ((P.evpU input).length - secPadVal (P.evpU input))).all
        (fun b => b == secPadVal (P.evpU input)) = true
    · rw [if_neg h1, if_pos h2, hE]
      refine ⟨Or.inl rfl, ?_, fun _ => rfl⟩
      simp only [true_iff]
      refine ⟨?_, ?_, ?_⟩
      · omega
      · omega
      · rw [hE] at h2; exact h2
    · rw [if_neg h1, if_neg (by simpa using h2)]
      refine ⟨Or.inr rfl, ?_, ?_⟩
      · constructor
        · intro hx; simp at hx
        · rintro ⟨_, _, hall⟩
          exact absurd hall h2
      · intro hx; simp at hx

/-- C6 witness: one properly padded block on a fresh AES-CBC-PKCS7 decrypt
handle with the identity library pipeline. -/
theorem C6_decrypt_last_padding_validated_witness :
    ((SecCipher_Process cipherPrims0 cbcDecHandle0 paddedBlock0 true false 16).1
        = Sec_Result.SUCCESS ∨
     (SecCipher_Process cipherPrims0 cbcDecHandle0 paddedBlock0 true false 16).1
        = Sec_Result.INVALID_PADDING) ∧
    ((SecCipher_Process cipherPrims0 cbcDecHandle0 paddedBlock0 true false 16).1
        = Sec_Result.SUCCESS ↔
      (1 ≤ secPadVal (cipherPrims0.evpU paddedBlock0) ∧
       secPadVal (cipherPrims0.evpU paddedBlock0) ≤ 16 ∧
       ((cipherPrims0.evpU paddedBlock0).drop
           ((cipherPrims0.evpU paddedBlock0).length -
             secPadVal (cipherPrims0.evpU paddedBlock0))).all
         (fun b => b == secPadVal (cipherPrims0.evpU paddedBlock0)) = true)) ∧
    ((SecCipher_Process cipherPrims0 cbcDecHandle0 paddedBlock0 true false 16).1
        = Sec_Result.SUCCESS →
      (SecCipher_Process cipherPrims0 cbcDecHandle0 paddedBlock0 true false 16).2.2.2 =
        paddedBlock0.length - secPadVal (cipherPrims0.evpU paddedBlock0)) :=
  C6_decrypt_last_padding_validated_from_one_block cipherPrims0 cbcDecHandle0 paddedBlock0 16
    (Or.inr rfl) rfl rfl (by decide) (by decide) rfl (by decide)

/-- C1: for every raw symmetric container (AES-128/256, HMAC-128/160/256)
with the exact per-type payload length and a valid identifier, the envelope
wrap performed by SecOpenSSL_ProcessKeyContainer composed with the unwrap
performed by _Sec_SymetricFromKeyHandle returns exactly the provisioned key
bytes; the hypothesis on the store primitives is that envelope decryption
inverts envelope encryption on the payload, which holds of the AES-CBC/PKCS#7
pair the envelope specifies. -/
theorem C1_raw_symmetric_round_trip (P : StorePrims) (L : LadderPrims) (rootKey : List Nat)
    (c : Sec_ClearKeyContainer) (data : List Nat) (objectId : Nat)
    (hc : c ≠ Sec_ClearKeyContainer.DERIVED)
    (hid : objectId ≠ SEC_OBJECTID_INVALID)
    (hlen : data.length = c.reqLen)
    (hdec : P.dec (P.enc data) = data) :
    provisionThenUnwrap P L rootKey c data objectId = some data := by
  cases c
  case DERIVED => exact absurd rfl hc
  all_goals
    simp only [Sec_ClearKeyContainer.reqLen] at hlen
  all_goals
    simp [provisionThenUnwrap, SecOpenSSL_ProcessKeyContainer, Sec_SymetricFromKeyHandle,
      SecStore_StoreData, SecStore_RetrieveData, SecKey_IsSymetric, SecKey_GetKeyLenForKeyType,
      Sec_ClearKeyContainer.toKC, Sec_ClearKeyContainer.reqLen, Sec_ClearKeyContainer.keyType,
      SEC_KEYCONTAINER_MAX_LEN, hid, hlen, hdec]

/-- C1 witness: sixteen concrete bytes provisioned as a raw AES-128 container
under identifier 4096 with identity envelope primitives round-trip to the same
bytes. -/
theorem C1_raw_symmetric_round_trip_witness :
    provisionThenUnwrap storePrims0 ladderPrims0 (List.replicate 16 0)
      Sec_ClearKeyContainer.RAW_AES_128 rawData0 4096 = some rawData0 :=
  C1_raw_symmetric_round_trip storePrims0 ladderPrims0 (List.replicate 16 0)
    Sec_ClearKeyContainer.RAW_AES_128 rawData0 4096 (by decide) (by decide) (by decide) rfl

/-- Helper: a write does not touch positions below its offset. -/
theorem writeBytes_below (buf : Nat → Nat) (off : Nat) (src : List Nat) (idx : Nat)
    (h : idx < off) : writeBytes buf off src idx = buf idx := by
  unfold writeBytes
  rw [if_neg]
  omega

/-- Helper: a write determines the positions it covers. -/
theorem writeBytes_covered (buf : Nat → Nat) (off : Nat) (src : List Nat) (idx : Nat)
    (h1 : off ≤ idx) (h2 : idx < off + src.length) :
    writeBytes buf off src idx = src.getD (idx - off) 0 := by
  unfold writeBytes
  rw [if_pos ⟨h1, h2⟩]

/-- Helper: getD commutes with take below the cut. -/
theorem getD_take_of_lt (l : List Nat) (m j : Nat) (h : j < m) :
    (l.take m).getD j 0 = l.getD j 0 := by
  by_cases hj : j < l.length
  · rw [List.getD_eq_getElem _ _ (by simpa [List.length_take] using ⟨h, hj⟩),
        List.getD_eq_getElem _ _ hj]
    exact List.getElem_take l
  · rw [List.getD_eq_default _ _ (by simp [List.length_take]; omega),
        List.getD_eq_default _ _ (by omega)]

/-- Helper: indexing the flattening of equal-length blocks is indexing block
idx / d at position idx % d. -/
theorem flatten_getD_const (d : Nat) (hd : 0 < d) :
    ∀ (L : List (List Nat)), (∀ l ∈ L, l.length = d) →
      ∀ idx, idx < L.length * d →
        L.flatten.getD idx 0 = (L.getD (idx / d) []).getD (idx % d) 0 := by
  intro L
  induction L with
  | nil => intro _ idx h; simp at h
  | cons x xs ih =>
    intro hL idx hidx
    have hx : x.length = d := hL x (by simp)
    rw [List.flatten_cons]
    by_cases hlt : idx < d
    · rw [Nat.div_eq_of_lt hlt, Nat.mod_eq_of_lt hlt]
      rw [List.getD_append _ _ _ _ (by omega)]
      rfl
    · have hge : d ≤ idx := Nat.not_lt.1 hlt
      rw [List.getD_append_right _ _ _ _ (by omega), hx,
          Nat.div_eq_sub_div hd hge, Nat.mod_eq_sub_mod hge, List.getD_cons_succ]
      apply ih (fun l hl => hL l (by simp [hl]))
      have : (x :: xs).length * d = xs.length * d + d := by
        rw [List.length_cons, Nat.succ_mul]
      omega

/-- Helper: after n loop iterations the out_key buffer holds, at every
position covered by the copy length of its block, the corresponding byte of
that Expand block. -/
theorem hkdfFill_eval (mac : List Nat → List Nat → List Nat) (prk info : List Nat)
    (k d r : Nat) (g : Nat → Nat) (hd : 0 < d)
    (hlen : ∀ key m, (mac key m).length = d) :
    ∀ n idx, idx / d < n →
      idx % d < (if idx / d + 1 = r then k % d else d) →
      hkdfFill mac prk info k d r n g idx =
        (hkdfT mac prk info (idx / d + 1)).getD (idx % d) 0 := by
  intro n
  induction n with
  | zero => intro idx h _; exact absurd h (Nat.not_lt_zero _)
  | succ n ih =>
    intro idx hdiv hmod
    have hsplit : d * (idx / d) + idx % d = idx := Nat.div_add_mod idx d
    have hTlen : (hkdfT mac prk info (n + 1)).length = d := hlen _ _
    have hcple : (if n + 1 = r then k % d else d) ≤ d := by
      split
      · exact Nat.le_of_lt (Nat.mod_lt _ hd)
      · exact Nat.le_refl d
    unfold hkdfFill
    by_cases hq : idx / d = n
    · have hoff : n * d ≤ idx := by
        rw [← hq]
        calc idx / d * d = d * (idx / d) := Nat.mul_comm _ _
        _ ≤ idx := by omega
      have hiq : idx - n * d = idx % d := by
        rw [← hq]
        have : d * (idx / d) = idx / d * d := Nat.mul_comm _ _
        omega
      have hclen : ((hkdfT mac prk info (n + 1)).take
          (if n + 1 = r then k % d else d)).length = (if n + 1 = r then k % d else d) := by
        rw [List.length_take, hTlen]
        omega
      have hmod2 : idx % d < (if n + 1 = r then k % d else d) := by
        rw [← hq]
        exact hmod
      rw [writeBytes_covered _ _ _ _ hoff (by rw [hclen]; omega), hiq,
          getD_take_of_lt _ _ _ hmod2, hq]
    · have hlt2 : idx / d < n := by omega
      have hbelow : idx < n * d := by
        have h1 : idx < d * (idx / d + 1) := by
          have := Nat.mod_lt idx hd
          rw [Nat.mul_add, Nat.mul_one]
          omega
        calc idx < d * (idx / d + 1) := h1
        _ ≤ d * n := Nat.mul_le_mul_left d (by omega)
        _ = n * d := Nat.mul_comm _ _
      rw [writeBytes_below _ _ _ _ hbelow]
      exact ih idx hlt2 hmod

/-- Supporting result for the HKDF finding: whenever the derived key length is
not an exact multiple of the digest length, the Expand loop of the source
produces exactly the reference HKDF bytes, independently of the uninitialised
stack contents, so the divergence of SecKey_Derive_HKDF from the reference is
confined to the exact-multiple case. -/
theorem hkdf_matches_reference_when_not_exact_multiple
    (mac : List Nat → List Nat → List Nat) (baseMacKey salt info : List Nat)
    (k d : Nat) (g : Nat → Nat) (hd : 0 < d) (hk : k % d ≠ 0)
    (hlen : ∀ key m, (mac key m).length = d) :
    SecKey_Derive_HKDF_outKey mac baseMacKey salt info k d g =
      hkdf_spec mac baseMacKey salt info k d := by
  have hmodlt : k % d < d := Nat.mod_lt _ hd
  have hsplit : d * (k / d) + k % d = k := Nat.div_add_mod k d
  have hr : (k + d - 1) / d = k / d + 1 := by
    have hmul : d * (k / d + 1) = d * (k / d) + d := by ring
    have h1 : k + d - 1 = d * (k / d + 1) + (k % d - 1) := by
      rw [hmul]
      omega
    have h0 : (k % d - 1) / d = 0 := Nat.div_eq_of_lt (by omega)
    rw [h1, Nat.mul_add_div hd, h0, Nat.add_zero]
  have hL1 : SecKey_Derive_HKDF_outKey mac baseMacKey salt info k d g =
      (List.range k).map
        (hkdfFill mac (mac baseMacKey salt) info k d (k / d + 1) (k / d + 1) g) := by
    simp only [SecKey_Derive_HKDF_outKey]
    rw [if_neg hk]
  have hL2 : hkdf_spec mac baseMacKey salt info k d =
      (((List.range (k / d + 1)).map
        (fun i => hkdfT mac (mac baseMacKey salt) info (i + 1))).flatten).take k := by
    simp only [hkdf_spec]
    rw [hr]
  rw [hL1, hL2]
  set prk := mac baseMacKey salt with hprk
  set r := k / d + 1 with hrdef
  set L := (List.range r).map (fun i => hkdfT mac prk info (i + 1)) with hL
  have hLmem : ∀ l ∈ L, l.length = d := by
    intro l hl
    rcases List.mem_map.1 hl with ⟨i, _, rfl⟩
    exact hlen _ _
  have hLlen : L.length = r := by rw [hL, List.length_map, List.length_range]
  have hmaps : L.map List.length = List.replicate r d := by
    rw [List.eq_replicate_iff]
    constructor
    · rw [List.length_map, hLlen]
    · intro b hb
      rcases List.mem_map.1 hb with ⟨l, hl, rfl⟩
      exact hLmem l hl
  have hflat : L.flatten.length = r * d := by
    rw [List.length_flatten, hmaps, List.sum_replicate, smul_eq_mul]
  have hkle : k ≤ r * d := by
    have hrd : r * d = d * (k / d) + d := by rw [hrdef]; ring
    omega
  apply List.ext_getElem
  · rw [List.length_map, List.length_range, List.length_take, hflat]
    omega
  · intro i h1 h2
    have hik : i < k := by simpa using h1
    have hidiv : i / d < r := by
      have hdle := Nat.div_le_div_right (c := d) (Nat.le_of_lt hik)
      omega
    have himod : i % d < (if i / d + 1 = r then k % d else d) := by
      split
      · rename_i hcase
        have hq : i / d = k / d := by omega
        have hi : d * (i / d) + i % d = i := Nat.div_add_mod i d
        rw [hq] at hi
        omega
      · exact Nat.mod_lt _ hd
    have hbound : i < L.length * d := by rw [hLlen]; omega
    have hbound2 : i < L.flatten.length := by rw [hflat]; omega
    rw [List.getElem_map, List.getElem_range, List.getElem_take,
        ← List.getD_eq_getElem L.flatten 0 hbound2,
        flatten_getD_const d hd L hLmem i hbound]
    have hLget : L.getD (i / d) [] = hkdfT mac prk info (i / d + 1) := by
      rw [List.getD_eq_getElem _ _ (by rw [hLlen]; omega)]
      simp [hL]
    rw [hLget]
    exact hkdfFill_eval mac prk info k d r g hd hlen r i hidiv himod
